import Mathlib

/-!
Verification of the BetterFinder core (indexing pipeline and query engine).

The definitions below are a shallow embedding of `app/core/indexer.py` and
`app/core/search_engine.py`:

* the SQLite table `files` (schema created in `FileSystemIndexer.setup_database`,
  with `UNIQUE(path, filename)`) is modelled as a list of rows in rowid order;
* `INSERT OR REPLACE` is modelled by deleting the conflicting row and appending
  the new one (SQLite assigns a fresh rowid, so the replacement lands at the end
  of a table scan);
* SQL `LIKE` is modelled by an executable matcher over lowered ASCII characters
  (SQLite's default `LIKE` is case-insensitive for ASCII, `%` matches any
  sequence, `_` exactly one character);
* Python string operations (`in`, `split`, `strip`, `startswith`,
  `os.path.splitext(...)[1].lower()`) are modelled by executable functions on
  character lists;
* the retry loops, the ingestion worker loop and the traversal are modelled as
  explicit state-passing functions over an environment describing which attempts
  fail, the queue events, or the accessibility of filesystem nodes.
-/

namespace BetterFinder

/-! ## Data model: the `files` table -/

/-- One row of the `files` table
(`filename, path, size, last_modified, file_type`). -/
structure FileRow where
  filename : String
  path : String
  size : Nat
  last_modified : Int
  file_type : String
deriving DecidableEq, Repr

/-- The `files` table in rowid (scan) order. -/
abbrev Store := List FileRow

/-- Row `x` collides with the `UNIQUE(path, filename)` key of row `r`. -/
def sameKey (r x : FileRow) : Bool :=
  x.path == r.path && x.filename == r.filename

/-- `INSERT OR REPLACE INTO files ... VALUES (?,?,?,?,?)` for one record:
the conflicting row (if any) is deleted and the new row appended with a fresh
rowid (`FileSystemIndexer._execute_batch_insert` / `_insert_individually`). -/
def upsert (db : Store) (r : FileRow) : Store :=
  (db.filter (fun x => !(sameKey r x))) ++ [r]

/-- `cursor.executemany('INSERT OR REPLACE ...', batch)`: the records of the
batch are upserted in order. -/
def batchInsert (db : Store) (batch : List FileRow) : Store :=
  batch.foldl upsert db

/-- Row predicate for the key `(path, filename) = (p, f)`. -/
def hasKey (p f : String) (x : FileRow) : Bool :=
  x.path == p && x.filename == f

/-- Number of rows with key `(p, f)`. -/
def keyCount (db : Store) (p f : String) : Nat :=
  (db.filter (hasKey p f)).length

/-- The row holding key `(p, f)` that a table scan sees last. -/
def keyLookup (db : Store) (p f : String) : Option FileRow :=
  (db.filter (hasKey p f)).getLast?

lemma hasKey_iff (p f : String) (x : FileRow) :
    hasKey p f x = true ↔ x.path = p ∧ x.filename = f := by
  simp [hasKey]

lemma hasKey_false (p f : String) (x : FileRow) (h : ¬(x.path = p ∧ x.filename = f)) :
    hasKey p f x = false :=
  Bool.eq_false_iff.2 (fun hc => h ((hasKey_iff p f x).1 hc))

lemma sameKey_iff (r x : FileRow) :
    sameKey r x = true ↔ x.path = r.path ∧ x.filename = r.filename := by
  simp [sameKey]

lemma sameKey_false (r x : FileRow) (h : ¬(x.path = r.path ∧ x.filename = r.filename)) :
    sameKey r x = false :=
  Bool.eq_false_iff.2 (fun hc => h ((sameKey_iff r x).1 hc))

lemma filter_upsert_same (db : Store) (r : FileRow) :
    (upsert db r).filter (hasKey r.path r.filename) = [r] := by
  simp only [upsert, List.filter_append]
  have h1 : (db.filter (fun x => !(sameKey r x))).filter (hasKey r.path r.filename) = [] := by
    rw [List.filter_filter]
    apply List.filter_eq_nil_iff.2
    intro a _
    by_cases hk : hasKey r.path r.filename a = true
    · have := (hasKey_iff _ _ _).1 hk
      simp [sameKey_iff, this.1, this.2, hk]
    · simp [hk]
  have h2 : [r].filter (hasKey r.path r.filename) = [r] := by
    simp [hasKey_iff]
  rw [h1, h2, List.nil_append]

lemma filter_upsert_other (db : Store) (r : FileRow) (p f : String)
    (h : ¬(r.path = p ∧ r.filename = f)) :
    (upsert db r).filter (hasKey p f) = db.filter (hasKey p f) := by
  simp only [upsert, List.filter_append]
  have h2 : [r].filter (hasKey p f) = [] := by
    simp [List.filter_cons, hasKey_false p f r h]
  rw [h2, List.append_nil]
  rw [List.filter_filter]
  apply List.filter_congr
  intro a _
  by_cases hk : hasKey p f a = true
  · have ha := (hasKey_iff _ _ _).1 hk
    have hs : sameKey r a = false := by
      apply sameKey_false
      intro hc
      exact h ⟨by rw [← hc.1, ha.1], by rw [← hc.2, ha.2]⟩
    simp [hs, hk]
  · simp [hk, Bool.eq_false_iff.2 hk]

lemma filter_batchInsert_none (db : Store) (batch : List FileRow) (p f : String)
    (h : ∀ r ∈ batch, ¬(r.path = p ∧ r.filename = f)) :
    (batchInsert db batch).filter (hasKey p f) = db.filter (hasKey p f) := by
  induction batch generalizing db with
  | nil => rfl
  | cons r rest ih =>
      have hr : ¬(r.path = p ∧ r.filename = f) := h r (by simp)
      have hrest : ∀ r' ∈ rest, ¬(r'.path = p ∧ r'.filename = f) := by
        intro r' hr'
        exact h r' (by simp [hr'])
      calc (batchInsert (upsert db r) rest).filter (hasKey p f)
          = (upsert db r).filter (hasKey p f) := ih (upsert db r) hrest
        _ = db.filter (hasKey p f) := filter_upsert_other db r p f hr

lemma getLast?_cons_ne_nil {α : Type} (a : α) (l : List α) (h : l ≠ []) :
    (a :: l).getLast? = l.getLast? := by
  cases l with
  | nil => exact absurd rfl h
  | cons b t => simp [List.getLast?_cons_cons]

lemma filter_batchInsert_last (db : Store) (batch : List FileRow) (p f : String)
    (r : FileRow) (h : (batch.filter (hasKey p f)).getLast? = some r) :
    (batchInsert db batch).filter (hasKey p f) = [r] := by
  induction batch generalizing db with
  | nil => simp at h
  | cons a rest ih =>
      by_cases hrest : (rest.filter (hasKey p f)).getLast? = some r ∧
          rest.filter (hasKey p f) ≠ []
      · exact ih (upsert db a) hrest.1
      · -- the last key match is the head `a` itself and rest has no match
        by_cases hne : rest.filter (hasKey p f) = []
        · have hka : hasKey p f a = true := by
            by_cases hk : hasKey p f a = true
            · exact hk
            · rw [List.filter_cons, if_neg (by simp [hk]), hne] at h
              simp at h
          have har : a = r := by
            rw [List.filter_cons, if_pos (by simp [hka]), hne] at h
            simpa using h
          have hrest' : ∀ r' ∈ rest, ¬(r'.path = p ∧ r'.filename = f) := by
            intro r' hr' hc
            have : r' ∈ rest.filter (hasKey p f) :=
              List.mem_filter.2 ⟨hr', (hasKey_iff _ _ _).2 hc⟩
            simp [hne] at this
          have step : batchInsert db (a :: rest) = batchInsert (upsert db a) rest := rfl
          rw [step, filter_batchInsert_none _ _ _ _ hrest']
          have hk := (hasKey_iff _ _ _).1 hka
          have hups := filter_upsert_same db a
          rw [hk.1, hk.2] at hups
          rw [hups, har]
        · -- rest has a key match, so the overall last match is rest's last match
          exfalso
          apply hrest
          constructor
          · rw [List.filter_cons] at h
            by_cases hk : hasKey p f a = true
            · rw [if_pos (by simp [hk])] at h
              rwa [getLast?_cons_ne_nil _ _ hne] at h
            · rwa [if_neg (by simp [hk])] at h
          · exact hne

/-! ## Python string primitives used by the query engine -/

/-- Python `sub in s` (substring containment) on character lists. -/
def listContains (sub : List Char) : List Char → Bool
  | [] => sub.isEmpty
  | c :: rest => sub.isPrefixOf (c :: rest) || listContains sub rest

/-- Python `sub in s` on strings. -/
def pyContains (sub s : String) : Bool :=
  listContains sub.toList s.toList

/-- Python `s.startswith(pre)`. -/
def pyStartsWith (pre s : String) : Bool :=
  pre.toList.isPrefixOf s.toList

/-- ASCII whitespace stripped by Python `str.strip()` (the queries handled here
are ASCII). -/
def isPySpace (c : Char) : Bool :=
  c == ' ' || c == '\t' || c == '\n' || c == '\r' || c == '\x0b' || c == '\x0c'

/-- Python `s.strip()`. -/
def pyStrip (s : String) : String :=
  String.mk (((s.toList.dropWhile isPySpace).reverse.dropWhile isPySpace).reverse)

/-- Python `s[n:]`. -/
def pyDrop (n : Nat) (s : String) : String :=
  String.mk (s.toList.drop n)

/-- First occurrence of `sep` in `s`: the part before it and the part after it. -/
def findSplit (sep : List Char) : List Char → Option (List Char × List Char)
  | [] => if sep.isEmpty then some ([], []) else none
  | c :: rest =>
      if sep.isPrefixOf (c :: rest) then some ([], (c :: rest).drop sep.length)
      else
        match findSplit sep rest with
        | none => none
        | some (b, a) => some (c :: b, a)

/-- Splitting loop for `pySplit`; the fuel argument only bounds recursion depth
and is always supplied large enough (`s.length + 1`) never to run out. -/
def splitAux (sep : List Char) : Nat → List Char → List (List Char)
  | 0, s => [s]
  | fuel + 1, s =>
      match findSplit sep s with
      | none => [s]
      | some (b, a) => b :: splitAux sep fuel a

/-- Python `s.split(sep)` for a non-empty separator. -/
def pySplit (sep s : String) : List String :=
  (splitAux sep.toList (s.toList.length + 1) s.toList).map (fun l => String.mk l)

/-! ## The query parser (`SearchEngine._parse_query`) -/

/-- The parsed-query dictionaries built by `_parse_query`
(`{'type': 'simple'|'and'|'or'|'not', ...}`). -/
inductive Parsed where
  | simple (value : String)
  | and (operands : List Parsed)
  | or (operands : List Parsed)
  | not (operand : Parsed)

/-- `'*' in query or '?' in query`. -/
def hasWildcard (q : String) : Bool :=
  q.toList.contains '*' || q.toList.contains '?'

/-- `value.replace('*', '%').replace('?', '_')` (the two replacements touch
disjoint characters, so a single pass is equivalent). -/
def replaceWildcards (s : String) : String :=
  String.mk (s.toList.map (fun c => if c = '*' then '%' else if c = '?' then '_' else c))

/-- `SearchEngine._parse_query`: single-level boolean detection
(` AND ` first, then ` OR `, then a `NOT ` head), followed by wildcard
normalization applied only when the result is a plain term and the original
query holds a wildcard character. -/
def parse_query (query : String) : Parsed :=
  let parsed :=
    if pyContains " AND " query then
      Parsed.and ((pySplit " AND " query).map (fun part => Parsed.simple (pyStrip part)))
    else if pyContains " OR " query then
      Parsed.or ((pySplit " OR " query).map (fun part => Parsed.simple (pyStrip part)))
    else if pyStartsWith "NOT " query then
      Parsed.not (Parsed.simple (pyStrip (pyDrop 4 query)))
    else
      Parsed.simple query
  if hasWildcard query then
    match parsed with
    | Parsed.simple v => Parsed.simple (replaceWildcards v)
    | p => p
  else parsed

/-! ## SQL `LIKE` and the generated WHERE clauses -/

/-- Lower-case an ASCII letter (SQLite's default `LIKE` folds only ASCII). -/
def asciiLower (c : Char) : Char :=
  if 'A' ≤ c ∧ c ≤ 'Z' then Char.ofNat (c.toNat + 32) else c

/-- SQLite `LIKE` matching (`%` = any sequence, `_` = exactly one character,
ASCII case-insensitive).  The fuel argument only bounds recursion depth; each
step shortens pattern-plus-subject, so `p.length + s.length + 1` never runs
out. -/
def likeMatchFuel : Nat → List Char → List Char → Bool
  | 0, _, _ => false
  | _ + 1, [], s => s.isEmpty
  | fuel + 1, '%' :: ps, s =>
      likeMatchFuel fuel ps s ||
        (match s with
         | [] => false
         | _ :: s' => likeMatchFuel fuel ('%' :: ps) s')
  | fuel + 1, '_' :: ps, s =>
      (match s with
       | [] => false
       | _ :: s' => likeMatchFuel fuel ps s')
  | fuel + 1, c :: ps, s =>
      (match s with
       | [] => false
       | d :: s' => (asciiLower c == asciiLower d) && likeMatchFuel fuel ps s')

/-- `filename LIKE pattern`. -/
def likeMatch (pattern s : String) : Bool :=
  likeMatchFuel (pattern.toList.length + s.toList.length + 1) pattern.toList s.toList

/-- `'%' in value or '_' in value` (`_build_where_clause`, simple case). -/
def hasSqlWildcard (v : String) : Bool :=
  v.toList.contains '%' || v.toList.contains '_'

mutual
/-- Row-level meaning of the WHERE clause built by
`SearchEngine._build_where_clause`, as a predicate on the filename column. -/
def whereClausePred : Parsed → String → Bool
  | Parsed.simple v, fn =>
      if hasSqlWildcard v then likeMatch v fn else likeMatch ("%" ++ v ++ "%") fn
  | Parsed.and ops, fn => whereClauseAll ops fn
  | Parsed.or ops, fn => whereClauseAny ops fn
  | Parsed.not p, fn => !(whereClausePred p fn)

/-- Conjunction of operand clauses (`" AND ".join`). -/
def whereClauseAll : List Parsed → String → Bool
  | [], _ => true
  | p :: rest, fn => whereClausePred p fn && whereClauseAll rest fn

/-- Disjunction of operand clauses (`" OR ".join`). -/
def whereClauseAny : List Parsed → String → Bool
  | [], _ => false
  | p :: rest, fn => whereClausePred p fn || whereClauseAny rest fn
end

/-! ## The search paths (`SearchEngine`) -/

/-- One result dictionary (`filename, path, size, last_modified, file_type,
full_path`). -/
structure SearchResult where
  filename : String
  path : String
  size : Nat
  last_modified : Int
  file_type : String
  full_path : String
deriving DecidableEq, Repr

/-- `os.path.join(path, filename)` on Windows for a relative second argument. -/
def joinPath (p f : String) : String :=
  match p.toList.getLast? with
  | some c => if c = '\\' || c = '/' || c = ':' then p ++ f else p ++ "\\" ++ f
  | none => f

/-- The row-to-dictionary conversion shared by all result loops. -/
def toResult (r : FileRow) : SearchResult :=
  ⟨r.filename, r.path, r.size, r.last_modified, r.file_type, joinPath r.path r.filename⟩

/-- `if file_type:` — the extension filter clause is appended only when the
argument is truthy (present and non-empty). -/
def typeFilter (ft : Option String) (r : FileRow) : Bool :=
  match ft with
  | none => true
  | some t => if t == "" then true else r.file_type == t

/-- `SearchEngine._simple_search`: `WHERE filename LIKE '%query%'
[AND file_type = ?] LIMIT max_results`, rows converted to result
dictionaries. -/
def simple_search (db : Store) (query : String) (ft : Option String)
    (maxResults : Nat) : List SearchResult :=
  ((db.filter (fun r =>
      likeMatch ("%" ++ query ++ "%") r.filename && typeFilter ft r)).take maxResults).map
    toResult

/-- `SearchEngine._complex_search`: parse the query, build the WHERE clause,
filter and limit. -/
def complex_search (db : Store) (query : String) (ft : Option String)
    (maxResults : Nat) : List SearchResult :=
  ((db.filter (fun r =>
      whereClausePred (parse_query query) r.filename && typeFilter ft r)).take maxResults).map
    toResult

/-- `any(op in query for op in ['AND', 'OR', 'NOT']) or '*' in query or
'?' in query` — the routing test of `SearchEngine.search`. -/
def isComplexQuery (q : String) : Bool :=
  pyContains "AND" q || pyContains "OR" q || pyContains "NOT" q || hasWildcard q

/-- `SearchEngine.search`: route to the complex or the simple path. -/
def search (db : Store) (query : String) (ft : Option String)
    (maxResults : Nat) : List SearchResult :=
  if isComplexQuery query then complex_search db query ft maxResults
  else simple_search db query ft maxResults

/-- The regex result loop: append each matching candidate and stop as soon as
`cnt` (results collected so far) reaches `maxR`
(`if len(results) >= max_results: break`). -/
def collectMatches (p : FileRow → Bool) (maxR : Nat) (cnt : Nat) :
    List FileRow → List FileRow
  | [] => []
  | r :: rest =>
      if p r then
        if maxR ≤ cnt + 1 then [r]
        else r :: collectMatches p maxR (cnt + 1) rest
      else collectMatches p maxR cnt rest

/-- `SearchEngine.search_by_regex` on a successfully compiled pattern:
fetch `LIMIT max_results * 10` candidate rows (pre-filtered by extension when
the filter is truthy), keep the ones whose filename the compiled pattern
`pmatch` accepts, stopping at `max_results` matches.  `pmatch` stands for
`re.compile(regex_pattern, re.IGNORECASE).search`, which is not modelled
further. -/
def search_by_regex (pmatch : String → Bool) (db : Store) (ft : Option String)
    (maxResults : Nat) : List SearchResult :=
  let candidates := (db.filter (typeFilter ft)).take (maxResults * 10)
  (collectMatches (fun r => pmatch r.filename) maxResults 0 candidates).map toResult

/-- **C1.** Upsert is idempotent on the key `(path, filename)`: after any
sequence of batched upserts containing at least one record with key `(p, f)`,
the store holds exactly one row with that key, and that row is the last record
with key `(p, f)` that was inserted. -/
theorem upsert_idempotent_on_key (db : Store) (batch : List FileRow)
    (p f : String) (h : ∃ r ∈ batch, r.path = p ∧ r.filename = f) :
    keyCount (batchInsert db batch) p f = 1 ∧
    keyLookup (batchInsert db batch) p f =
      (batch.filter (hasKey p f)).getLast? := by
  have hne : batch.filter (hasKey p f) ≠ [] := by
    obtain ⟨r, hr, hk⟩ := h
    intro hnil
    have : r ∈ batch.filter (hasKey p f) :=
      List.mem_filter.2 ⟨hr, (hasKey_iff _ _ _).2 hk⟩
    simp [hnil] at this
  obtain ⟨r, hr⟩ := Option.isSome_iff_exists.1 (List.getLast?_isSome.2 hne)
  have hfil := filter_batchInsert_last db batch p f r hr
  constructor
  · simp [keyCount, hfil]
  · rw [keyLookup, hfil, hr]
    rfl

/-- Witness for C1: inserting two records with the same `(path, filename)` but
different metadata leaves exactly one row, carrying the later metadata. -/
theorem upsert_idempotent_on_key_witness :
    (∃ r ∈ [FileRow.mk "a.txt" "C:\\d" 1 10 ".txt",
            FileRow.mk "a.txt" "C:\\d" 2 20 ".txt"],
        r.path = "C:\\d" ∧ r.filename = "a.txt") ∧
    keyCount (batchInsert [] [FileRow.mk "a.txt" "C:\\d" 1 10 ".txt",
                              FileRow.mk "a.txt" "C:\\d" 2 20 ".txt"]) "C:\\d" "a.txt" = 1 ∧
    keyLookup (batchInsert [] [FileRow.mk "a.txt" "C:\\d" 1 10 ".txt",
                               FileRow.mk "a.txt" "C:\\d" 2 20 ".txt"]) "C:\\d" "a.txt" =
      some (FileRow.mk "a.txt" "C:\\d" 2 20 ".txt") := by
  refine ⟨⟨FileRow.mk "a.txt" "C:\\d" 1 10 ".txt", by simp, by simp⟩, ?_⟩
  have h := upsert_idempotent_on_key []
    [FileRow.mk "a.txt" "C:\\d" 1 10 ".txt", FileRow.mk "a.txt" "C:\\d" 2 20 ".txt"]
    "C:\\d" "a.txt"
    ⟨FileRow.mk "a.txt" "C:\\d" 1 10 ".txt", by simp, by simp⟩
  refine ⟨h.1, ?_⟩
  rw [h.2]
  decide

/-! ## Parser branch lemmas (shared by several claims) -/

lemma parse_query_and_eq (q : String) (h : pyContains " AND " q = true) :
    parse_query q =
      Parsed.and ((pySplit " AND " q).map (fun part => Parsed.simple (pyStrip part))) := by
  simp only [parse_query, h, if_true]
  cases hW : hasWildcard q <;> simp

lemma parse_query_or_eq (q : String) (hA : pyContains " AND " q = false)
    (hO : pyContains " OR " q = true) :
    parse_query q =
      Parsed.or ((pySplit " OR " q).map (fun part => Parsed.simple (pyStrip part))) := by
  simp only [parse_query, hA, hO, if_true, Bool.false_eq_true, if_false]
  cases hW : hasWildcard q <;> simp

lemma parse_query_not_eq (q : String) (hA : pyContains " AND " q = false)
    (hO : pyContains " OR " q = false) (hN : pyStartsWith "NOT " q = true) :
    parse_query q = Parsed.not (Parsed.simple (pyStrip (pyDrop 4 q))) := by
  simp only [parse_query, hA, hO, hN, if_true, Bool.false_eq_true, if_false]
  cases hW : hasWildcard q <;> simp

lemma parse_query_plain_eq (q : String) (hA : pyContains " AND " q = false)
    (hO : pyContains " OR " q = false) (hN : pyStartsWith "NOT " q = false)
    (hW : hasWildcard q = false) :
    parse_query q = Parsed.simple q := by
  simp [parse_query, hA, hO, hN, hW]

lemma parse_query_wild_eq (q : String) (hA : pyContains " AND " q = false)
    (hO : pyContains " OR " q = false) (hN : pyStartsWith "NOT " q = false)
    (hW : hasWildcard q = true) :
    parse_query q = Parsed.simple (replaceWildcards q) := by
  simp [parse_query, hA, hO, hN, hW]

/-- **C2.** The parser applies exactly one level of boolean detection, in the
order ` AND `, then ` OR `, then a leading `NOT `, else a single term; a query
holding both ` AND ` and ` OR ` becomes an `And` whose operands keep the OR
text literally, e.g. `"a AND b OR c"` parses to
`And(Term "a", Term "b OR c")`. -/
theorem parse_query_single_level :
    (∀ q : String, pyContains " AND " q = true →
        parse_query q =
          Parsed.and ((pySplit " AND " q).map (fun part => Parsed.simple (pyStrip part)))) ∧
    (∀ q : String, pyContains " AND " q = false → pyContains " OR " q = true →
        parse_query q =
          Parsed.or ((pySplit " OR " q).map (fun part => Parsed.simple (pyStrip part)))) ∧
    (∀ q : String, pyContains " AND " q = false → pyContains " OR " q = false →
        pyStartsWith "NOT " q = true →
        parse_query q = Parsed.not (Parsed.simple (pyStrip (pyDrop 4 q)))) ∧
    (∀ q : String, pyContains " AND " q = false → pyContains " OR " q = false →
        pyStartsWith "NOT " q = false → hasWildcard q = false →
        parse_query q = Parsed.simple q) ∧
    parse_query "a AND b OR c" = Parsed.and [Parsed.simple "a", Parsed.simple "b OR c"] :=
  ⟨parse_query_and_eq, parse_query_or_eq, parse_query_not_eq, parse_query_plain_eq, by rfl⟩

/-- Witness for C2: each branch of the detection order at a concrete query. -/
theorem parse_query_single_level_witness :
    parse_query "a AND b" = Parsed.and [Parsed.simple "a", Parsed.simple "b"] ∧
    parse_query "a OR b" = Parsed.or [Parsed.simple "a", Parsed.simple "b"] ∧
    parse_query "NOT a" = Parsed.not (Parsed.simple "a") ∧
    parse_query "abc" = Parsed.simple "abc" :=
  ⟨(parse_query_single_level.1 "a AND b" (by decide)).trans (by rfl),
   (parse_query_single_level.2.1 "a OR b" (by decide) (by decide)).trans (by rfl),
   (parse_query_single_level.2.2.1 "NOT a" (by decide) (by decide) (by decide)).trans (by rfl),
   parse_query_single_level.2.2.2.1 "abc" (by decide) (by decide) (by decide) (by decide)⟩

/-- **C3.** Wildcard normalization maps `*` to `%` and `?` to `_`, touches only
plain `Term` values (boolean operands are kept raw), fires only when the
original query holds a wildcard character, and as a consequence the query
`"rep*.txt"` matches `report.txt` and `repair.txt` but not `report.doc`. -/
theorem wildcard_normalization :
    (∀ q : String, pyContains " AND " q = false → pyContains " OR " q = false →
        pyStartsWith "NOT " q = false → hasWildcard q = true →
        parse_query q = Parsed.simple (replaceWildcards q)) ∧
    (∀ s : String, replaceWildcards s =
        String.mk (s.toList.map (fun c => if c = '*' then '%' else if c = '?' then '_' else c))) ∧
    (∀ q : String, pyContains " AND " q = true →
        parse_query q =
          Parsed.and ((pySplit " AND " q).map (fun part => Parsed.simple (pyStrip part)))) ∧
    (∀ q : String, pyContains " AND " q = false → pyContains " OR " q = false →
        pyStartsWith "NOT " q = false → hasWildcard q = false →
        parse_query q = Parsed.simple q) ∧
    search [FileRow.mk "report.txt" "C:\\docs" 10 0 ".txt",
            FileRow.mk "repair.txt" "C:\\docs" 11 0 ".txt",
            FileRow.mk "report.doc" "C:\\docs" 12 0 ".doc"] "rep*.txt" none 1000 =
      [toResult (FileRow.mk "report.txt" "C:\\docs" 10 0 ".txt"),
       toResult (FileRow.mk "repair.txt" "C:\\docs" 11 0 ".txt")] :=
  ⟨parse_query_wild_eq, fun _ => rfl, parse_query_and_eq, parse_query_plain_eq, by decide⟩

/-- Witness for C3: normalization applied to a plain wildcard term, skipped
inside an AND, and absent without wildcard characters. -/
theorem wildcard_normalization_witness :
    parse_query "rep*.txt" = Parsed.simple "rep%.txt" ∧
    parse_query "a*c AND b" = Parsed.and [Parsed.simple "a*c", Parsed.simple "b"] ∧
    parse_query "repo" = Parsed.simple "repo" :=
  ⟨(wildcard_normalization.1 "rep*.txt" (by decide) (by decide) (by decide) (by decide)).trans
      (by rfl),
   (wildcard_normalization.2.2.1 "a*c AND b" (by decide)).trans (by rfl),
   wildcard_normalization.2.2.2.1 "repo" (by decide) (by decide) (by decide) (by decide)⟩

/-! ## C4: the regex path -/

lemma collectMatches_eq_filter_take (p : FileRow → Bool) (maxR : Nat) :
    ∀ (l : List FileRow) (cnt : Nat), cnt < maxR →
      collectMatches p maxR cnt l = (l.filter p).take (maxR - cnt) := by
  intro l
  induction l with
  | nil => intro cnt _; simp [collectMatches]
  | cons r rest ih =>
      intro cnt hcnt
      by_cases hp : p r = true
      · by_cases hstop : maxR ≤ cnt + 1
        · have hone : maxR - cnt = 1 := by omega
          simp [collectMatches, hp, hstop, List.filter_cons, hone]
        · have hlt : cnt + 1 < maxR := by omega
          have hsub : maxR - cnt = (maxR - (cnt + 1)) + 1 := by omega
          simp [collectMatches, hp, hstop, List.filter_cons, ih (cnt + 1) hlt, hsub]
      · have hp' : p r = false := Bool.eq_false_iff.2 hp
        simp [collectMatches, hp', List.filter_cons, ih cnt hcnt]

/-- **C4.** The regex path fetches at most `10 × max_results` candidate rows
(pre-filtered by the extension filter), keeps exactly the first `max_results`
candidates whose filename the compiled case-insensitive pattern accepts, and so
returns at most `max_results` records, each of whose filename matches. -/
theorem regex_bounded_fetch (pmatch : String → Bool) (db : Store)
    (ft : Option String) (mr : Nat) :
    search_by_regex pmatch db ft mr =
      ((((db.filter (typeFilter ft)).take (mr * 10)).filter
          (fun r => pmatch r.filename)).take mr).map toResult ∧
    ((db.filter (typeFilter ft)).take (mr * 10)).length ≤ 10 * mr ∧
    (search_by_regex pmatch db ft mr).length ≤ mr ∧
    ∀ res ∈ search_by_regex pmatch db ft mr, pmatch res.filename = true := by
  have hmain : search_by_regex pmatch db ft mr =
      ((((db.filter (typeFilter ft)).take (mr * 10)).filter
          (fun r => pmatch r.filename)).take mr).map toResult := by
    unfold search_by_regex
    dsimp only
    rcases Nat.eq_zero_or_pos mr with hmr | hmr
    · subst hmr; simp [collectMatches]
    · rw [collectMatches_eq_filter_take _ mr _ 0 hmr]
      simp
  refine ⟨hmain, ?_, ?_, ?_⟩
  · calc ((db.filter (typeFilter ft)).take (mr * 10)).length
        ≤ mr * 10 := List.length_take_le _ _
      _ = 10 * mr := Nat.mul_comm _ _
  · rw [hmain]
    simp only [List.length_map]
    exact List.length_take_le _ _
  · intro res hres
    rw [hmain] at hres
    obtain ⟨r, hr, hres⟩ := List.mem_map.1 hres
    have hr' := List.mem_of_mem_take hr
    have := (List.mem_filter.1 hr').2
    rw [← hres]
    exact this

/-- Witness for C4: a concrete store, pattern and limit, giving a result whose
filename the pattern accepts. -/
theorem regex_bounded_fetch_witness :
    pyContains "rep"
      (toResult (FileRow.mk "report.txt" "C:\\docs" 10 0 ".txt")).filename = true :=
  (regex_bounded_fetch (fun s => pyContains "rep" s)
      [FileRow.mk "report.txt" "C:\\docs" 10 0 ".txt",
       FileRow.mk "notes.md" "C:\\docs" 11 0 ".md"] none 1).2.2.2
    (toResult (FileRow.mk "report.txt" "C:\\docs" 10 0 ".txt")) (by decide)

/-! ## C10: routing of operator-substring queries -/

/-- **C10 (counterexample).** `"BRAND_X"` holds `AND` only as a plain substring
and has no `*`/`?` wildcard, so it is routed to the complex path; but because
it holds `_`, the complex path runs `filename LIKE 'BRAND_X'` while the simple
path would run `filename LIKE '%BRAND_X%'`, and the two return different
results. -/
theorem complex_simple_divergence :
    pyContains "AND" "BRAND_X" = true ∧
    pyContains " AND " "BRAND_X" = false ∧
    pyContains " OR " "BRAND_X" = false ∧
    pyStartsWith "NOT " "BRAND_X" = false ∧
    hasWildcard "BRAND_X" = false ∧
    search [FileRow.mk "BRAND_X.txt" "C:\\d" 1 0 ".txt"] "BRAND_X" none 1000 =
      complex_search [FileRow.mk "BRAND_X.txt" "C:\\d" 1 0 ".txt"] "BRAND_X" none 1000 ∧
    complex_search [FileRow.mk "BRAND_X.txt" "C:\\d" 1 0 ".txt"] "BRAND_X" none 1000 ≠
      simple_search [FileRow.mk "BRAND_X.txt" "C:\\d" 1 0 ".txt"] "BRAND_X" none 1000 := by
  decide

/-- **C10 (amended).** For a query that holds `AND`, `OR` or `NOT` only as a
plain substring, has no ` AND `/` OR ` separator, no `NOT ` head, no `*`/`?`
wildcard, **and also no literal `%` or `_` character**, the complex path the
router selects returns exactly the simple path's results. -/
theorem complex_equals_simple_on_plain_queries
    (db : Store) (q : String) (ft : Option String) (mr : Nat)
    (hA : pyContains " AND " q = false) (hO : pyContains " OR " q = false)
    (hN : pyStartsWith "NOT " q = false) (hW : hasWildcard q = false)
    (hOp : isComplexQuery q = true)
    (hPct : q.toList.contains '%' = false) (hUnd : q.toList.contains '_' = false) :
    search db q ft mr = complex_search db q ft mr ∧
    complex_search db q ft mr = simple_search db q ft mr := by
  have hparse : parse_query q = Parsed.simple q := parse_query_plain_eq q hA hO hN hW
  refine ⟨by simp [search, hOp], ?_⟩
  have hsql : hasSqlWildcard q = false := by
    unfold hasSqlWildcard
    rw [hPct, hUnd]
    rfl
  simp [complex_search, simple_search, hparse, whereClausePred, hsql]

/-- Witness for C10 (amended): `"BRAND"` holds `AND` as a substring and no
wildcard or SQL pattern character, and both paths agree on it. -/
theorem complex_equals_simple_on_plain_queries_witness :
    search [FileRow.mk "BRANDING.txt" "C:\\d" 1 0 ".txt"] "BRAND" none 5 =
      simple_search [FileRow.mk "BRANDING.txt" "C:\\d" 1 0 ".txt"] "BRAND" none 5 := by
  have h := complex_equals_simple_on_plain_queries
    [FileRow.mk "BRANDING.txt" "C:\\d" 1 0 ".txt"] "BRAND" none 5
    (by decide) (by decide) (by decide) (by decide) (by decide) (by decide) (by decide)
  exact h.1.trans h.2

/-! ## C5/C7: lock-contention retry loops

`FileSystemIndexer._execute_batch_insert` (write path) and the identical retry
blocks of `SearchEngine._simple_search`, `_complex_search` and
`search_by_regex` (read paths) are embedded as explicit loops over a list of
remaining iteration indices; an environment `env` says how the SQL statement
of attempt `i` ends.  Delays are rationals in seconds. -/

/-- Outcome of one `cursor.execute`/`executemany` attempt. -/
inductive AttemptOutcome where
  | success
  | locked      -- `sqlite3.OperationalError` whose text holds "database is locked"
  | otherError  -- any other `sqlite3.OperationalError`
deriving DecidableEq, Repr

/-- `FileSystemIndexer._insert_individually`: upsert records one at a time,
skipping (swallowing the `sqlite3.Error` of) the records `bad` marks as
failing. -/
def insert_individually (bad : FileRow → Bool) (db : Store)
    (batch : List FileRow) : Store :=
  batch.foldl (fun d r => if bad r then d else upsert d r) db

/-- Observable trace of one `_execute_batch_insert` call. -/
structure BatchInsertTrace where
  db : Store
  sleeps : List ℚ
  attempts : Nat
  usedIndividual : Bool
deriving DecidableEq, Repr

/-- The `for retry in range(max_retries)` body of `_execute_batch_insert`.
`retries` is the list of remaining iteration indices, so `rest = []` exactly
on the final iteration (`retry == max_retries - 1`).  On `locked` before the
final iteration: sleep `delay`, multiply it by 1.5, go round again; on the
final iteration any failure falls into `_insert_individually`; a non-lock
operational error before the final iteration loops again without sleeping. -/
def batchInsertFrom (env : Nat → AttemptOutcome) (bad : FileRow → Bool)
    (db : Store) (batch : List FileRow) : List Nat → ℚ → BatchInsertTrace
  | [], _ => ⟨db, [], 0, false⟩
  | retry :: rest, delay =>
      match env retry with
      | AttemptOutcome.success => ⟨batchInsert db batch, [], 1, false⟩
      | AttemptOutcome.locked =>
          if rest.isEmpty then ⟨insert_individually bad db batch, [], 1, true⟩
          else
            let t := batchInsertFrom env bad db batch rest (delay * (3 / 2))
            ⟨t.db, delay :: t.sleeps, t.attempts + 1, t.usedIndividual⟩
      | AttemptOutcome.otherError =>
          if rest.isEmpty then ⟨insert_individually bad db batch, [], 1, true⟩
          else
            let t := batchInsertFrom env bad db batch rest delay
            ⟨t.db, t.sleeps, t.attempts + 1, t.usedIndividual⟩

/-- `FileSystemIndexer._execute_batch_insert`: `max_retries = 5`,
`retry_delay = 1.0`. -/
def execute_batch_insert (env : Nat → AttemptOutcome) (bad : FileRow → Bool)
    (db : Store) (batch : List FileRow) : BatchInsertTrace :=
  batchInsertFrom env bad db batch [0, 1, 2, 3, 4] 1

/-- Observable trace of one read-path retry loop. -/
structure ReadRetryTrace where
  sleeps : List ℚ
  attempts : Nat
  reconnects : Nat
  raised : Bool
deriving DecidableEq, Repr

/-- The retry loop shared verbatim by `_simple_search`, `_complex_search` and
`search_by_regex`: on `locked` before the final iteration sleep, double the
delay, close and reopen the connection; any other failure (or a lock on the
final iteration) re-raises. -/
def readRetryFrom (env : Nat → AttemptOutcome) : List Nat → ℚ → ReadRetryTrace
  | [], _ => ⟨[], 0, 0, false⟩
  | retry :: rest, delay =>
      match env retry with
      | AttemptOutcome.success => ⟨[], 1, 0, false⟩
      | AttemptOutcome.locked =>
          if rest.isEmpty then ⟨[], 1, 0, true⟩
          else
            let t := readRetryFrom env rest (delay * 2)
            ⟨delay :: t.sleeps, t.attempts + 1, t.reconnects + 1, t.raised⟩
      | AttemptOutcome.otherError => ⟨[], 1, 0, true⟩

/-- The read-path retry loop: `max_retries = 3`, `retry_delay = 1.0`. -/
def read_retry (env : Nat → AttemptOutcome) : ReadRetryTrace :=
  readRetryFrom env [0, 1, 2] 1

lemma insert_individually_eq_filter (bad : FileRow → Bool) (db : Store)
    (batch : List FileRow) :
    insert_individually bad db batch =
      batchInsert db (batch.filter (fun r => !(bad r))) := by
  induction batch generalizing db with
  | nil => rfl
  | cons r rest ih =>
      by_cases hb : bad r = true
      · simp [insert_individually, batchInsert, List.filter_cons, hb] at ih ⊢
        exact ih db
      · have hb' : bad r = false := Bool.eq_false_iff.2 hb
        simp [insert_individually, batchInsert, List.filter_cons, hb'] at ih ⊢
        exact ih (upsert db r)

lemma batchInsertFrom_attempts_le (env : Nat → AttemptOutcome) (bad : FileRow → Bool)
    (db : Store) (batch : List FileRow) :
    ∀ (l : List Nat) (delay : ℚ),
      (batchInsertFrom env bad db batch l delay).attempts ≤ l.length := by
  intro l
  induction l with
  | nil => intro delay; simp [batchInsertFrom]
  | cons retry rest ih =>
      intro delay
      simp only [batchInsertFrom]
      cases henv : env retry
      · simp [List.length_cons]
      · by_cases h : rest.isEmpty
        · simp [h, List.length_cons]
        · have := ih (delay * (3 / 2))
          simp only [h, Bool.false_eq_true, if_false, List.length_cons]
          omega
      · by_cases h : rest.isEmpty
        · simp [h, List.length_cons]
        · have := ih delay
          simp only [h, Bool.false_eq_true, if_false, List.length_cons]
          omega

/-- **C5.** The batch writer makes at most 5 attempts; when every attempt hits
lock contention it makes exactly 5, with backoff sleeps `1.0, 1.5, 2.25,
3.375` seconds (base 1.0s, ×1.5 per retry), then degrades to inserting the
records one at a time; the per-record fallback persists exactly the records
whose individual insert does not fail, so one bad record never blocks the
rest of the batch. -/
theorem batch_write_resilience (env : Nat → AttemptOutcome) (bad : FileRow → Bool)
    (db : Store) (batch : List FileRow) (hlock : ∀ i, env i = AttemptOutcome.locked) :
    (execute_batch_insert env bad db batch).attempts = 5 ∧
    (execute_batch_insert env bad db batch).sleeps = [1, 3 / 2, 9 / 4, 27 / 8] ∧
    (execute_batch_insert env bad db batch).usedIndividual = true ∧
    (execute_batch_insert env bad db batch).db = insert_individually bad db batch ∧
    insert_individually bad db batch =
      batchInsert db (batch.filter (fun r => !(bad r))) ∧
    (∀ (env' : Nat → AttemptOutcome) (bad' : FileRow → Bool) (db' : Store)
        (batch' : List FileRow),
      (execute_batch_insert env' bad' db' batch').attempts ≤ 5) := by
  have h0 := hlock 0
  have h1 := hlock 1
  have h2 := hlock 2
  have h3 := hlock 3
  have h4 := hlock 4
  refine ⟨?_, ?_, ?_, ?_, insert_individually_eq_filter bad db batch,
    fun env' bad' db' batch' =>
      batchInsertFrom_attempts_le env' bad' db' batch' [0, 1, 2, 3, 4] 1⟩ <;>
    · simp only [execute_batch_insert, batchInsertFrom, h0, h1, h2, h3, h4]
      norm_num

/-- Witness for C5: a two-record batch (one bad record) under permanent lock
contention still persists the good record. -/
theorem batch_write_resilience_witness :
    (execute_batch_insert (fun _ => AttemptOutcome.locked)
        (fun r => r.filename == "bad.txt") []
        [FileRow.mk "bad.txt" "C:\\d" 1 0 ".txt",
         FileRow.mk "good.txt" "C:\\d" 2 0 ".txt"]).attempts = 5 ∧
    (execute_batch_insert (fun _ => AttemptOutcome.locked)
        (fun r => r.filename == "bad.txt") []
        [FileRow.mk "bad.txt" "C:\\d" 1 0 ".txt",
         FileRow.mk "good.txt" "C:\\d" 2 0 ".txt"]).db =
      [FileRow.mk "good.txt" "C:\\d" 2 0 ".txt"] := by
  have h := batch_write_resilience (fun _ => AttemptOutcome.locked)
    (fun r => r.filename == "bad.txt") []
    [FileRow.mk "bad.txt" "C:\\d" 1 0 ".txt", FileRow.mk "good.txt" "C:\\d" 2 0 ".txt"]
    (fun _ => rfl)
  refine ⟨h.1, ?_⟩
  rw [h.2.2.2.1]
  decide

/-- **C7 (counterexample).** The read-path retry loop is not identical in shape
to the write path's: under permanent lock contention the read paths make 3
attempts with sleeps `1.0, 2.0` (base 1.0s, ×2) and reconnect before **every**
retry, while the write path makes 5 attempts with sleeps
`1.0, 1.5, 2.25, 3.375` (×1.5). -/
theorem read_write_retry_divergence :
    (read_retry (fun _ => AttemptOutcome.locked)).attempts = 3 ∧
    (execute_batch_insert (fun _ => AttemptOutcome.locked) (fun _ => false) []
        []).attempts = 5 ∧
    (read_retry (fun _ => AttemptOutcome.locked)).attempts ≠
      (execute_batch_insert (fun _ => AttemptOutcome.locked) (fun _ => false) []
        []).attempts ∧
    (read_retry (fun _ => AttemptOutcome.locked)).sleeps = [1, 2] ∧
    (execute_batch_insert (fun _ => AttemptOutcome.locked) (fun _ => false) []
        []).sleeps = [1, 3 / 2, 9 / 4, 27 / 8] ∧
    (read_retry (fun _ => AttemptOutcome.locked)).sleeps ≠
      (execute_batch_insert (fun _ => AttemptOutcome.locked) (fun _ => false) []
        []).sleeps ∧
    (read_retry (fun _ => AttemptOutcome.locked)).reconnects = 2 := by
  refine ⟨?_, ?_, ?_, ?_, ?_, ?_, ?_⟩ <;>
    · simp only [read_retry, readRetryFrom, execute_batch_insert, batchInsertFrom]
      norm_num

/-- **C7 (amended).** The read paths share one retry policy of the same general
pattern as the write path's but with different parameters: 3 attempts, base
delay 1.0s doubled per retry, a close-and-reconnect before every retry, and a
re-raise (not a reconnect) on final failure; a success on any attempt stops
the loop with no sleeps. -/
theorem read_retry_policy (env : Nat → AttemptOutcome) :
    (env 0 = AttemptOutcome.success → read_retry env = ⟨[], 1, 0, false⟩) ∧
    (env 0 = AttemptOutcome.locked → env 1 = AttemptOutcome.locked →
      env 2 = AttemptOutcome.locked → read_retry env = ⟨[1, 2], 3, 2, true⟩) ∧
    (env 0 = AttemptOutcome.otherError → read_retry env = ⟨[], 1, 0, true⟩) := by
  refine ⟨?_, ?_, ?_⟩
  · intro h0
    simp [read_retry, readRetryFrom, h0]
  · intro h0 h1 h2
    simp only [read_retry, readRetryFrom, h0, h1, h2]
    norm_num
  · intro h0
    simp [read_retry, readRetryFrom, h0]

/-- Witness for C7 (amended): the three cases at concrete environments. -/
theorem read_retry_policy_witness :
    read_retry (fun _ => AttemptOutcome.success) = ⟨[], 1, 0, false⟩ ∧
    read_retry (fun _ => AttemptOutcome.locked) = ⟨[1, 2], 3, 2, true⟩ ∧
    read_retry (fun _ => AttemptOutcome.otherError) = ⟨[], 1, 0, true⟩ :=
  ⟨(read_retry_policy (fun _ => AttemptOutcome.success)).1 rfl,
   (read_retry_policy (fun _ => AttemptOutcome.locked)).2.1 rfl rfl rfl,
   (read_retry_policy (fun _ => AttemptOutcome.otherError)).2.2 rfl⟩

/-! ## C6: the ingestion consumer loop (`FileSystemIndexer._indexing_worker`) -/

/-- One pull from `self.file_queue.get(timeout=60.0)`: a file record, the
`None` end-of-scan sentinel, or a `queue.Empty` timeout. -/
inductive QEvent where
  | item (r : FileRow)
  | sentinel
  | timeout
deriving DecidableEq, Repr

/-- Consumer state: the store written so far and the pending batch. -/
structure WorkerState where
  db : Store
  batch : List FileRow
deriving DecidableEq, Repr

/-- The `while True` loop of `_indexing_worker` over a finite trace of queue
events, with `batch_size = 1000`; batch flushes are modelled as successful
batch inserts (contention recovery is `execute_batch_insert`'s concern).
Returns the state at loop exit — including the post-loop flush of a leftover
batch — together with the portion of the trace the loop never consumed. -/
def indexing_worker : WorkerState → List QEvent → WorkerState × List QEvent
  | s, [] => (s, [])
  | s, QEvent.item r :: rest =>
      let batch' := s.batch ++ [r]
      if 1000 ≤ batch'.length then indexing_worker ⟨batchInsert s.db batch', []⟩ rest
      else indexing_worker ⟨s.db, batch'⟩ rest
  | s, QEvent.sentinel :: rest =>
      (⟨if s.batch.isEmpty then s.db else batchInsert s.db s.batch, []⟩, rest)
  | s, QEvent.timeout :: rest =>
      if s.batch.isEmpty then (s, rest)
      else indexing_worker ⟨batchInsert s.db s.batch, []⟩ rest

/-- **C6 (counterexample).** A 60-second pull timeout with a non-empty pending
batch flushes the batch but does **not** end the loop: with the event trace
`[item r₁, timeout, item r₂, sentinel]` the loop keeps running after the
timeout, consumes the whole trace and also persists `r₂`; the claim predicts
it stops at the timeout leaving `[item r₂, sentinel]` unconsumed. -/
theorem worker_timeout_not_completion :
    (indexing_worker ⟨[], []⟩
        [QEvent.item (FileRow.mk "a.txt" "C:\\d" 1 0 ".txt"), QEvent.timeout,
         QEvent.item (FileRow.mk "b.txt" "C:\\d" 2 0 ".txt"), QEvent.sentinel]).2 = [] ∧
    (indexing_worker ⟨[], []⟩
        [QEvent.item (FileRow.mk "a.txt" "C:\\d" 1 0 ".txt"), QEvent.timeout,
         QEvent.item (FileRow.mk "b.txt" "C:\\d" 2 0 ".txt"), QEvent.sentinel]).1.db =
      [FileRow.mk "a.txt" "C:\\d" 1 0 ".txt", FileRow.mk "b.txt" "C:\\d" 2 0 ".txt"] ∧
    (indexing_worker ⟨[], []⟩
        [QEvent.item (FileRow.mk "a.txt" "C:\\d" 1 0 ".txt"), QEvent.timeout,
         QEvent.item (FileRow.mk "b.txt" "C:\\d" 2 0 ".txt"), QEvent.sentinel]).2 ≠
      [QEvent.item (FileRow.mk "b.txt" "C:\\d" 2 0 ".txt"), QEvent.sentinel] := by
  refine ⟨?_, ?_, ?_⟩ <;> simp [indexing_worker, batchInsert, upsert, sameKey]

/-- **C6 (amended).** A pull timeout with a non-empty pending batch flushes the
batch and the loop **continues** with an empty batch; only a timeout with an
empty pending batch ends the loop (and the sentinel ends it with a final
flush). -/
theorem worker_timeout_behavior (s : WorkerState) (rest : List QEvent) :
    (s.batch.isEmpty = false →
        indexing_worker s (QEvent.timeout :: rest) =
          indexing_worker ⟨batchInsert s.db s.batch, []⟩ rest) ∧
    (s.batch.isEmpty = true →
        indexing_worker s (QEvent.timeout :: rest) = (s, rest)) := by
  constructor
  · intro h
    simp [indexing_worker, h]
  · intro h
    simp [indexing_worker, h]

/-- Witness for C6 (amended): both timeout cases at concrete states. -/
theorem worker_timeout_behavior_witness :
    indexing_worker ⟨[], [FileRow.mk "a.txt" "C:\\d" 1 0 ".txt"]⟩ [QEvent.timeout] =
      indexing_worker ⟨batchInsert [] [FileRow.mk "a.txt" "C:\\d" 1 0 ".txt"], []⟩ [] ∧
    indexing_worker ⟨[], []⟩ [QEvent.timeout] = (⟨[], []⟩, []) :=
  ⟨(worker_timeout_behavior ⟨[], [FileRow.mk "a.txt" "C:\\d" 1 0 ".txt"]⟩ []).1 rfl,
   (worker_timeout_behavior ⟨[], []⟩ []).2 rfl⟩

/-! ## C8: error flow of the query engine -/

/-- Exceptions relevant to the search paths. -/
inductive PyError where
  | reError  -- `re.error` raised by `re.compile` on a malformed pattern
  | dbError  -- `sqlite3.Error`
deriving DecidableEq, Repr

/-- `SearchEngine.search_by_regex` with its exception flow made explicit:
`pattern = re.compile(regex_pattern, re.IGNORECASE)` runs *outside* the `try`
that guards row processing, so a malformed pattern (modelled as
`compiled = none`) raises out of the method instead of returning `[]`. -/
def search_by_regexE (compiled : Option (String → Bool)) (db : Store)
    (ft : Option String) (maxResults : Nat) : Except PyError (List SearchResult) :=
  match compiled with
  | none => Except.error PyError.reError
  | some pmatch => Except.ok (search_by_regex pmatch db ft maxResults)

/-- `SearchThread.run` (`app/gui/main_window.py`), restricted to the regex and
plain branches: the GUI-layer caller wraps the engine call in a broad
`except Exception`, emitting an error notification and an empty result list.
The boolean in the result says whether the error notification was emitted. -/
def searchThreadRun (compiled : Option (String → Bool)) (db : Store)
    (query : String) (ft : Option String) : List SearchResult × Bool :=
  if pyStartsWith "regex:" query then
    match search_by_regexE compiled db ft 1000 with
    | Except.ok rs => (rs, false)
    | Except.error _ => ([], true)
  else (search db query ft 1000, false)

/-- **C8 (counterexample).** A malformed regex is *not* caught by the query
engine: `search_by_regex` raises `re.error` out of the engine instead of
returning an empty result set. -/
theorem invalid_regex_escapes_engine :
    search_by_regexE none [] none 1000 = Except.error PyError.reError ∧
    search_by_regexE none [] none 1000 ≠ Except.ok ([] : List SearchResult) := by
  refine ⟨rfl, ?_⟩
  intro h
  simp [search_by_regexE] at h

/-- **C8 (amended).** A malformed regex pattern raises out of the engine
(`search_by_regex` compiles before its `try` block), and it is the GUI-layer
`SearchThread` caller that catches the exception, surfaces an error
notification and delivers an empty result list; a pattern that compiles never
produces the error notification. -/
theorem invalid_regex_error_handling (db : Store) (ft : Option String)
    (q : String) (hq : pyStartsWith "regex:" q = true) :
    search_by_regexE none db ft 1000 = Except.error PyError.reError ∧
    searchThreadRun none db q ft = ([], true) ∧
    ∀ pmatch : String → Bool,
      searchThreadRun (some pmatch) db q ft =
        (search_by_regex pmatch db ft 1000, false) := by
  refine ⟨rfl, ?_, ?_⟩
  · simp [searchThreadRun, hq, search_by_regexE]
  · intro pmatch
    simp [searchThreadRun, hq, search_by_regexE]

/-- Witness for C8 (amended): the invalid pattern `"regex:("` at a concrete
store. -/
theorem invalid_regex_error_handling_witness :
    searchThreadRun none [FileRow.mk "a.txt" "C:\\d" 1 0 ".txt"] "regex:(" none =
      ([], true) :=
  (invalid_regex_error_handling [FileRow.mk "a.txt" "C:\\d" 1 0 ".txt"] none
    "regex:(" (by decide)).2.1

/-! ## C9: filesystem traversal (`FileSystemIndexer.scan_directory`) -/

/-- One discovered-file message put on `self.file_queue`. -/
structure IndexEvent where
  filename : String
  path : String
  size : Nat
  last_modified : Int
  file_type : String
deriving DecidableEq, Repr

/-- `os.path.splitext(s)[1]`: the suffix starting at the last dot, unless every
character before that dot is itself a dot. -/
def splitextExt (s : String) : String :=
  let r := s.toList.reverse
  match r.findIdx? (fun c => c = '.') with
  | none => ""
  | some i =>
      if (r.drop (i + 1)).any (fun c => c ≠ '.') then
        String.mk ((r.take (i + 1)).reverse)
      else ""

/-- `os.path.splitext(file)[1].lower()` (ASCII lowering, as in SQLite's
`LIKE`; the indexed names here are ASCII). -/
def extLower (s : String) : String :=
  String.mk ((splitextExt s).toList.map asciiLower)

/-- A filesystem node as `os.walk` and `os.stat` see it: `accessible = false`
on a file means `os.stat` raises (`PermissionError`/`FileNotFoundError`/
`OSError`); on a directory it means listing the directory raises, which
`os.walk` (with its default `onerror=None`) swallows, skipping the whole
subtree. -/
inductive FSTree where
  | file (name : String) (size : Nat) (mtime : Int) (accessible : Bool)
  | dir (name : String) (accessible : Bool) (entries : List FSTree)

mutual
/-- Events produced by walking one subtree sitting inside directory
`parent`. -/
def walkEvents (parent : String) : FSTree → List IndexEvent
  | FSTree.file _ _ _ _ => []
  | FSTree.dir n acc entries =>
      if acc then
        walkFiles (joinPath parent n) entries ++ walkDirs (joinPath parent n) entries
      else []

/-- The `for file in files` body: stat each file of the current directory,
skipping the inaccessible ones (`except (PermissionError, FileNotFoundError,
OSError): continue`), and emit one `IndexEvent` per accessible file. -/
def walkFiles (p : String) : List FSTree → List IndexEvent
  | [] => []
  | FSTree.file nm sz mt acc :: rest =>
      (if acc then [⟨nm, p, sz, mt, extLower nm⟩] else []) ++ walkFiles p rest
  | FSTree.dir _ _ _ :: rest => walkFiles p rest

/-- `os.walk`'s top-down descent into the subdirectories of the current
directory. -/
def walkDirs (p : String) : List FSTree → List IndexEvent
  | [] => []
  | t@(FSTree.dir _ _ _) :: rest => walkEvents p t ++ walkDirs p rest
  | FSTree.file _ _ _ _ :: rest => walkDirs p rest
end

/-- `FileSystemIndexer.scan_directory(directory)`: walk the given root
(`for root, dirs, files in os.walk(directory)`), emitting events for its
files and then for its subdirectories; an access error on the root itself is
caught by the outer `try` and yields nothing. -/
def scan_directory (directory : String) : FSTree → List IndexEvent
  | FSTree.file _ _ _ _ => []
  | FSTree.dir _ acc entries =>
      if acc then walkFiles directory entries ++ walkDirs directory entries
      else []

lemma walkFiles_append (p : String) (l₁ l₂ : List FSTree) :
    walkFiles p (l₁ ++ l₂) = walkFiles p l₁ ++ walkFiles p l₂ := by
  induction l₁ with
  | nil => simp [walkFiles]
  | cons t rest ih => cases t <;> simp [walkFiles, ih]

lemma walkDirs_append (p : String) (l₁ l₂ : List FSTree) :
    walkDirs p (l₁ ++ l₂) = walkDirs p l₁ ++ walkDirs p l₂ := by
  induction l₁ with
  | nil => simp [walkDirs]
  | cons t rest ih => cases t <;> simp [walkDirs, ih]

/-- **C9.** Traversal skips, silently and in isolation, every file whose stat
raises and every directory whose listing raises (their siblings and the rest
of the walk are unchanged), emits exactly one `IndexEvent` — carrying the
size, the modified time and the lowercased extension — for every accessible
file of a walked directory, splits cleanly around every walked subtree, and
yields nothing when the scanned root itself is inaccessible. -/
theorem traversal_partial_failure_isolation :
    (∀ (d n : String) (l₁ l₂ : List FSTree) (nm : String) (sz : Nat) (mt : Int),
        scan_directory d (FSTree.dir n true (l₁ ++ FSTree.file nm sz mt false :: l₂)) =
          scan_directory d (FSTree.dir n true (l₁ ++ l₂))) ∧
    (∀ (d n : String) (l₁ l₂ : List FSTree) (nm : String) (es : List FSTree),
        scan_directory d (FSTree.dir n true (l₁ ++ FSTree.dir nm false es :: l₂)) =
          scan_directory d (FSTree.dir n true (l₁ ++ l₂))) ∧
    (∀ (p : String) (l₁ l₂ : List FSTree) (nm : String) (sz : Nat) (mt : Int),
        walkFiles p (l₁ ++ FSTree.file nm sz mt true :: l₂) =
          walkFiles p l₁ ++ IndexEvent.mk nm p sz mt (extLower nm) :: walkFiles p l₂) ∧
    (∀ (p : String) (l₁ l₂ : List FSTree) (t : FSTree),
        walkDirs p (l₁ ++ t :: l₂) =
          walkDirs p l₁ ++ walkEvents p t ++ walkDirs p l₂) ∧
    (∀ (p nm : String) (entries : List FSTree),
        walkEvents p (FSTree.dir nm true entries) =
          walkFiles (joinPath p nm) entries ++ walkDirs (joinPath p nm) entries) ∧
    (∀ (d n : String) (entries : List FSTree),
        scan_directory d (FSTree.dir n false entries) = []) := by
  refine ⟨?_, ?_, ?_, ?_, ?_, ?_⟩
  · intro d n l₁ l₂ nm sz mt
    simp [scan_directory, walkFiles_append, walkDirs_append, walkFiles, walkDirs]
  · intro d n l₁ l₂ nm es
    simp [scan_directory, walkFiles_append, walkDirs_append, walkFiles, walkDirs,
      walkEvents]
  · intro p l₁ l₂ nm sz mt
    rw [walkFiles_append]
    simp [walkFiles]
  · intro p l₁ l₂ t
    rw [walkDirs_append]
    cases t <;> simp [walkDirs, walkEvents]
  · intro p nm entries
    simp [walkEvents]
  · intro d n entries
    simp [scan_directory]

end BetterFinder
